import Mathlib

/-!
Verification of the kernel-connection core of the Helium repository
(`src/lib/kernel.py`, `KernelConnection`, together with the session registry
in `src/helium.py`, `HeliumKernelManager`).

The embedding follows the Python source:

* inbound/outbound protocol messages are duck-typed JSON dictionaries,
  modelled by `JValue`; Python subscript (`msg["k"]`, raising `KeyError` /
  `TypeError`) is `jget`, and `dict.get(k, default)` is `pyGetD`;
* the reply demultiplexer's waiting table `KernelConnection.shell_msg_queues`
  is a `defaultdict(Queue)`; it is modelled by an association list from
  message-id strings to queue contents, with `tblGetOrCreate` giving the
  `defaultdict` lookup, `tblSet` the in-place queue update, and `tblPop`
  the `dict.pop(k, None)` in the `finally:` blocks;
* fallible Python code is translated into the `Except` monad, and each
  `try/except` of the source decides what an `.error` outcome turns into.
-/

namespace Helium

/-- Duck-typed JSON value, as carried in Jupyter protocol messages. -/
inductive JValue where
  | null
  | bool (b : Bool)
  | num (n : Int)
  | str (s : String)
  | list (xs : List JValue)
  | dict (kvs : List (String × JValue))

/-- Python subscript `v[k]` on a message dictionary: `KeyError` when the key
is missing, `TypeError` when `v` is not a dictionary. -/
def jget (v : JValue) (k : String) : Except String JValue :=
  match v with
  | .dict kvs =>
    match kvs.find? (fun p => p.1 == k) with
    | some p => .ok p.2
    | none => .error ("KeyError: " ++ k)
  | _ => .error ("TypeError: value is not subscriptable: " ++ k)

/-- Python `v.get(k, default)`: returns the default when the key is missing,
raises (`AttributeError`) when `v` is not a dictionary. -/
def pyGetD (v : JValue) (k : String) (d : JValue) : Except String JValue :=
  match v with
  | .dict kvs =>
    .ok (match kvs.find? (fun p => p.1 == k) with
         | some p => p.2
         | none => d)
  | _ => .error ("AttributeError: object has no attribute get: " ++ k)

/-- Python `k in v` for a dictionary (`False` on non-dictionaries is a
simplification that matches every use site in the source, where the value
checked is either a dictionary or the `.get` default `{}`). -/
def jHasKey (v : JValue) (k : String) : Bool :=
  match v with
  | .dict kvs => kvs.any (fun p => p.1 == k)
  | _ => false

/-- A value usable as Python `str` (string concatenation raises `TypeError`
otherwise). -/
def asStr (v : JValue) : Except String String :=
  match v with
  | .str s => .ok s
  | _ => .error "TypeError: not a str"

/-- A value iterable as a Python list. -/
def asList (v : JValue) : Except String (List JValue) :=
  match v with
  | .list xs => .ok xs
  | _ => .error "TypeError: not iterable"

/-- Python `x == "some string"`: only equal strings compare equal. -/
def strEq (v : JValue) (s : String) : Bool :=
  match v with
  | .str s' => s' == s
  | _ => false

/-! ## The waiting table `shell_msg_queues`

`KernelConnection.__init__` (line 247) creates
`self.shell_msg_queues = defaultdict(Queue)`; values are FIFO queues of
messages.  We represent it as an association list with unique keys,
and each queue by the list of its messages (front first). -/

/-- Contents of one `queue.Queue` of messages. -/
abbrev MsgQueue := List JValue

/-- The `shell_msg_queues` waiting table. -/
abbrev ShellMsgQueues := List (String × MsgQueue)

/-- Association-list lookup (generic, also used for the session registry). -/
def alistLookup {α : Type} : List (String × α) → String → Option α
  | [], _ => none
  | p :: t, k => if p.1 == k then some p.2 else alistLookup t k

/-- `tblLookup t k`: the queue currently registered under `k`, if any. -/
def tblLookup (t : ShellMsgQueues) (k : String) : Option MsgQueue :=
  alistLookup t k

/-- `k in t` (dictionary membership). -/
def tblHas (t : ShellMsgQueues) (k : String) : Bool :=
  (tblLookup t k).isSome

/-- Replace the queue bound to `k` (the key is present at every use site;
when it is not, the binding is appended). -/
def tblSet (t : ShellMsgQueues) (k : String) (q : MsgQueue) : ShellMsgQueues :=
  if tblHas t k then
    t.map (fun p => if p.1 == k then (k, q) else p)
  else
    t ++ [(k, q)]

/-- `defaultdict(Queue)` lookup `t[k]`: returns the existing queue, or
creates an empty one and registers it (this happens on *any* lookup,
in the listener as well as in the requesting thread). -/
def tblGetOrCreate (t : ShellMsgQueues) (k : String) : MsgQueue × ShellMsgQueues :=
  match tblLookup t k with
  | some q => (q, t)
  | none => ([], t ++ [(k, [])])

/-- `t.pop(k, None)` (lines 571 and 595): removes the binding for `k`. -/
def tblPop (t : ShellMsgQueues) (k : String) : ShellMsgQueues :=
  t.filter (fun p => !(p.1 == k))

/-! ### Table lemmas -/

theorem alistLookup_append_none {α : Type} (t₁ t₂ : List (String × α)) (k : String)
    (h : alistLookup t₁ k = none) :
    alistLookup (t₁ ++ t₂) k = alistLookup t₂ k := by
  induction t₁ with
  | nil => rfl
  | cons p t ih =>
    by_cases hp : p.1 = k
    · simp [alistLookup, hp] at h
    · have hb : (p.1 == k) = false := beq_eq_false_iff_ne.mpr hp
      simp only [alistLookup, hb, if_neg, Bool.false_eq_true, List.cons_append] at h ⊢
      exact ih h

theorem alistLookup_append_some {α : Type} (t₁ t₂ : List (String × α)) (k : String) (v : α)
    (h : alistLookup t₁ k = some v) :
    alistLookup (t₁ ++ t₂) k = some v := by
  induction t₁ with
  | nil => simp [alistLookup] at h
  | cons p t ih =>
    by_cases hp : p.1 = k
    · have hb : (p.1 == k) = true := beq_iff_eq.mpr hp
      simp only [alistLookup, hb, if_pos, List.cons_append] at h ⊢
      exact h
    · have hb : (p.1 == k) = false := beq_eq_false_iff_ne.mpr hp
      simp only [alistLookup, hb, if_neg, Bool.false_eq_true, List.cons_append] at h ⊢
      exact ih h

theorem tblLookup_pop_self (t : ShellMsgQueues) (k : String) :
    tblLookup (tblPop t k) k = none := by
  induction t with
  | nil => rfl
  | cons p t ih =>
    obtain ⟨a, q⟩ := p
    by_cases h : a = k
    · subst h
      simpa [tblPop, List.filter_cons] using ih
    · have hb : (a == k) = false := beq_eq_false_iff_ne.mpr h
      simp only [tblPop, List.filter_cons, hb, Bool.not_false, if_pos] at ih ⊢
      simp only [tblLookup, alistLookup, hb, Bool.false_eq_true, if_neg]
      exact ih

theorem tblLookup_pop_other (t : ShellMsgQueues) (k k' : String) (h : k' ≠ k) :
    tblLookup (tblPop t k) k' = tblLookup t k' := by
  induction t with
  | nil => rfl
  | cons p t ih =>
    obtain ⟨a, q⟩ := p
    by_cases hp : a = k
    · subst hp
      have hb' : (a == k') = false := beq_eq_false_iff_ne.mpr (fun hc => h hc.symm)
      simp only [tblPop, List.filter_cons, beq_self_eq_true, Bool.not_true, if_neg,
        Bool.false_eq_true] at ih ⊢
      simp only [tblLookup, alistLookup, hb', Bool.false_eq_true, if_neg]
      exact ih
    · have hb : (a == k) = false := beq_eq_false_iff_ne.mpr hp
      simp only [tblPop, List.filter_cons, hb, Bool.not_false, if_pos] at ih ⊢
      simp only [tblLookup, alistLookup]
      by_cases hp' : a = k'
      · simp [hp']
      · have hb' : (a == k') = false := beq_eq_false_iff_ne.mpr hp'
        simp only [hb', Bool.false_eq_true, if_neg]
        exact ih

theorem tblHas_pop_self (t : ShellMsgQueues) (k : String) :
    tblHas (tblPop t k) k = false := by
  simp [tblHas, tblLookup_pop_self]

theorem alistLookup_mapset_self (t : ShellMsgQueues) (k : String) (q : MsgQueue)
    (h : tblHas t k = true) :
    alistLookup (t.map (fun p => if p.1 == k then (k, q) else p)) k = some q := by
  induction t with
  | nil => simp [tblHas, tblLookup, alistLookup] at h
  | cons p t ih =>
    obtain ⟨a, w⟩ := p
    by_cases hp : a = k
    · subst hp
      simp [alistLookup]
    · have hb : (a == k) = false := beq_eq_false_iff_ne.mpr hp
      have h' : tblHas t k = true := by
        simpa [tblHas, tblLookup, alistLookup, hb] using h
      simpa [alistLookup, hb] using ih h'

theorem alistLookup_mapset_other (t : ShellMsgQueues) (k k' : String) (q : MsgQueue)
    (h : k' ≠ k) :
    alistLookup (t.map (fun p => if p.1 == k then (k, q) else p)) k' = alistLookup t k' := by
  induction t with
  | nil => rfl
  | cons p t ih =>
    obtain ⟨a, w⟩ := p
    by_cases hp : a = k
    · subst hp
      have hb' : (a == k') = false := beq_eq_false_iff_ne.mpr (fun hc => h hc.symm)
      simpa [alistLookup, hb'] using ih
    · have hb : (a == k) = false := beq_eq_false_iff_ne.mpr hp
      by_cases hp' : a = k'
      · have hb' : (a == k') = true := beq_iff_eq.mpr hp'
        simp [alistLookup, hb, hb']
      · have hb' : (a == k') = false := beq_eq_false_iff_ne.mpr hp'
        simpa [alistLookup, hb, hb'] using ih

theorem tblHas_none (t : ShellMsgQueues) (k : String) (h : ¬ tblHas t k = true) :
    tblLookup t k = none :=
  Option.not_isSome_iff_eq_none.mp (by simpa [tblHas] using h)

theorem tblLookup_set_self (t : ShellMsgQueues) (k : String) (q : MsgQueue) :
    tblLookup (tblSet t k q) k = some q := by
  unfold tblSet tblLookup
  by_cases h : tblHas t k = true
  · rw [if_pos h]
    exact alistLookup_mapset_self t k q h
  · rw [if_neg h, alistLookup_append_none t [(k, q)] k (tblHas_none t k h)]
    simp [alistLookup]

theorem tblLookup_set_other (t : ShellMsgQueues) (k k' : String) (q : MsgQueue)
    (h : k' ≠ k) : tblLookup (tblSet t k q) k' = tblLookup t k' := by
  unfold tblSet tblLookup
  by_cases hh : tblHas t k = true
  · rw [if_pos hh]
    exact alistLookup_mapset_other t k k' q h
  · rw [if_neg hh]
    cases hv : alistLookup t k' with
    | some v => exact alistLookup_append_some t [(k, q)] k' v hv
    | none =>
      have hb' : (k == k') = false := beq_eq_false_iff_ne.mpr (fun hc => h hc.symm)
      rw [alistLookup_append_none t [(k, q)] k' hv]
      simp [alistLookup, hb']

theorem tblGetOrCreate_lookup_self (t : ShellMsgQueues) (k : String) :
    tblLookup (tblGetOrCreate t k).2 k = some (tblGetOrCreate t k).1 := by
  unfold tblGetOrCreate
  cases h : tblLookup t k with
  | some q => simpa using h
  | none =>
    unfold tblLookup at h ⊢
    rw [alistLookup_append_none t [(k, [])] k h]
    simp [alistLookup]

theorem tblGetOrCreate_lookup_other (t : ShellMsgQueues) (k k' : String)
    (h : k' ≠ k) : tblLookup (tblGetOrCreate t k).2 k' = tblLookup t k' := by
  unfold tblGetOrCreate
  cases hl : tblLookup t k with
  | some q => rfl
  | none =>
    unfold tblLookup
    cases hv : alistLookup t k' with
    | some v => exact alistLookup_append_some t [(k, [])] k' v hv
    | none =>
      have hb' : (k == k') = false := beq_eq_false_iff_ne.mpr (fun hc => h hc.symm)
      rw [alistLookup_append_none t [(k, [])] k' hv]
      simp [alistLookup, hb']

/-! ## Logging

`KernelConnection` logs through `self._logger`; the entries relevant to the
specified behaviour are `info` strings, `info` of a received content object,
and `exception` (caught exception objects). -/

inductive LogEntry where
  | info (s : String)
  | infoContent (v : JValue)
  | exception (e : String)

/-! ## Processing of a `complete_reply` (lines 541-563)

The body of the `try:` in `KernelConnection.get_complete` after
`queue.get` returned a message.  Every dictionary access may raise
(`KeyError`/`TypeError`); the surrounding `except Exception` decides what
an `.error` becomes. -/

/-- Lines 542-563: extract the completion list from a received shell reply.
Returns the list of `(display_text, completion_text)` pairs handed to
Sublime Text. -/
def completeReplyResult (recv_msg : JValue) : Except String (List (String × String)) := do
  let recv_content ← jget recv_msg "content"
  let metadata_default ← pyGetD recv_content "metadata" (.dict [])
  if jHasKey metadata_default "_jupyter_types_experimental" then
    -- If the reply has typing metadata, use it.
    let metadata ← jget recv_content "metadata"
    let experimental ← asList (← jget metadata "_jupyter_types_experimental")
    experimental.mapM (fun mtch => do
      let text ← asStr (← jget mtch "text")
      let ty ← jget mtch "type"
      let tyStr ← match ty with
        | .null => pure "<no type info>"
        | v => asStr v
      pure (text ++ "\t" ++ tyStr, text))
  else
    -- Just say the completion came from this plugin, otherwise.
    let matchList ← asList (← jget recv_content "matches")
    matchList.mapM (fun m => do
      let s ← asStr m
      pure (s ++ "\tHelium", s))

/-- Python `self.execution_state != "idle"` (line 531), negated:
`_execution_state` holds whatever value the last status broadcast carried,
so the comparison is against an arbitrary object. -/
def isIdle (st : JValue) : Bool :=
  strEq st "idle"

/-- Result of one call to `KernelConnection.get_complete` (lines 529-575). -/
structure CompleteRun where
  /-- The value returned to the caller. -/
  result : List (String × String)
  /-- `shell_msg_queues` after the call. -/
  table : ShellMsgQueues
  /-- Whether `self.client.complete(...)` was executed (the request was
  transmitted to the kernel). -/
  sent : Bool
  /-- Log entries emitted on the paths the specification talks about. -/
  log : List LogEntry
  /-- Whether an exception propagated out of the call to its caller. -/
  raised : Bool
  /-- `self._execution_state` after the call (`get_complete` contains no
  assignment to it). -/
  execStateAfter : JValue

/-- `KernelConnection.get_complete` (lines 529-575), sequential model.

`reply?` is the outcome of `queue.get(timeout=timeout)`: `some msg` when the
listener put the correlated reply into the queue before the timeout
elapsed, `none` when `queue.Empty` was raised (kernel silent for `timeout`
seconds; with `timeout=0` the exception is immediate).  `msg_id` is the
correlation id freshly generated by `self.client.complete`. -/
def get_complete_model (execState : JValue) (table : ShellMsgQueues)
    (msg_id : String) (reply? : Option JValue) : CompleteRun :=
  if !(isIdle execState) then
    -- line 531-532: `if self.execution_state != "idle": return []`
    { result := [], table := table, sent := false, log := [], raised := false,
      execStateAfter := execState }
  else
    -- line 533: `msg_id = self.client.complete(code, cursor_pos)` (transmits)
    -- lines 534-538: `queue = self.shell_msg_queues[msg_id]` under the lock
    let t1 := (tblGetOrCreate table msg_id).2
    match reply? with
    | none =>
      -- line 564-565: `except Empty: self._logger.info("Completion timeout.")`
      -- lines 568-573: `finally: ... pop(msg_id, None)`; line 575: `return []`
      { result := [], table := tblPop t1 msg_id, sent := true,
        log := [.info "Completion timeout."], raised := false,
        execStateAfter := execState }
    | some recv_msg =>
      match completeReplyResult recv_msg with
      | .ok r =>
        { result := r, table := tblPop t1 msg_id, sent := true,
          log := [.infoContent recv_msg], raised := false,
          execStateAfter := execState }
      | .error e =>
        -- lines 566-567: `except Exception as ex: self._logger.exception(ex)`
        { result := [], table := tblPop t1 msg_id, sent := true,
          log := [.exception e], raised := false,
          execStateAfter := execState }

/-- Result of one call to `KernelConnection.get_inspection` (lines 577-597). -/
structure InspectionRun where
  /-- The `reply["content"]["data"]` dictionary handed to
  `self._handle_inspect_reply` (the "show inspection" output panel);
  `none` when nothing was displayed ("not found"). -/
  inspected : Option JValue
  /-- `shell_msg_queues` after the call. -/
  table : ShellMsgQueues
  /-- Whether the inspect request was transmitted. -/
  sent : Bool
  /-- Log entries emitted. -/
  log : List LogEntry
  /-- Whether an exception propagated out of the call (the `try:` here only
  handles `Empty`, so a malformed reply re-raises after the `finally:`). -/
  raised : Bool
  /-- `self._execution_state` after the call (never assigned). -/
  execStateAfter : JValue

/-- `KernelConnection.get_inspection` (lines 577-597), sequential model.
Unlike `get_complete` it has no `execution_state` guard and no
`except Exception` clause. -/
def get_inspection_model (execState : JValue) (table : ShellMsgQueues)
    (msg_id : String) (reply? : Option JValue) : InspectionRun :=
  -- line 579: `msg_id = self.client.inspect(code, cursor_pos, detail_level)`
  -- lines 580-584: `queue = self.shell_msg_queues[msg_id]` under the lock
  let t1 := (tblGetOrCreate table msg_id).2
  match reply? with
  | none =>
    -- lines 589-590: `except Empty: self._logger.info("Object inspection timeout.")`
    { inspected := none, table := tblPop t1 msg_id, sent := true,
      log := [.info "Object inspection timeout."], raised := false,
      execStateAfter := execState }
  | some recv_msg =>
    -- line 588: `self._handle_inspect_reply(recv_msg["content"]["data"])`
    match (do
        let content ← jget recv_msg "content"
        jget content "data" : Except String JValue) with
    | .ok data =>
      { inspected := some data, table := tblPop t1 msg_id, sent := true,
        log := [], raised := false, execStateAfter := execState }
    | .error _ =>
      -- `KeyError`/`TypeError` here is not handled: the `finally:` still
      -- pops the entry, then the exception propagates to the caller.
      { inspected := none, table := tblPop t1 msg_id, sent := true,
        log := [], raised := true, execStateAfter := execState }

/-- One call to `KernelConnection.execute_code` (lines 515-523): registers
the output region under the new message id and logs; fire-and-forget,
no read of the reply and no write to `_execution_state`. -/
structure ExecuteRun where
  /-- `self.id2region` after the call, keyed by message id. -/
  id2region : List (String × Nat)
  /-- `self._execution_state` after the call (never assigned). -/
  execStateAfter : JValue

/-- `KernelConnection.execute_code` (lines 515-523). `regionEnd` stands for
`phantom_region.end()`. -/
def execute_code_model (execState : JValue) (id2region : List (String × Nat))
    (msg_id : String) (regionEnd : Nat) : ExecuteRun :=
  { id2region := (msg_id, regionEnd) :: id2region,
    execStateAfter := execState }

/-! ## The shell listener (`ShellMessageReceiver.run`, lines 124-142) -/

/-- `msg["parent_header"]["msg_id"]` as used on line 134; restricted to
string ids (Jupyter message ids are strings). -/
def parentMsgId (msg : JValue) : Except String String := do
  let parent_header ← jget msg "parent_header"
  let msg_id ← jget parent_header "msg_id"
  asStr msg_id

/-- One delivery step of the shell listener for a received message
(lines 130-142): look the parent id up in `shell_msg_queues` under the lock
(a `defaultdict`, so the entry is created if absent) and `queue.put(msg)`.
Any exception is caught by `except Exception` and logged (second
component). -/
def shellReceiverStep (t : ShellMsgQueues) (msg : JValue) :
    ShellMsgQueues × Option String :=
  match parentMsgId msg with
  | .ok msg_id =>
    let (q, t1) := tblGetOrCreate t msg_id
    (tblSet t1 msg_id (q ++ [msg]), none)
  | .error e => (t, some e)

/-! ## The I/O-pub listener (`IOPubMessageReceiver.run`, lines 147-192) -/

/-- `MSG_TYPE_STATUS` (line 36). -/
def MSG_TYPE_STATUS : String := "status"

/-- `self._execution_state = "unknown"` in `__init__` (line 256). -/
def initExecutionState : JValue := .str "unknown"

/-- The value of `self._kernel._execution_state` after the I/O-pub listener
handles one message, as an `Except` (lines 152-161, the statements executed
up to and including the only assignment to `_execution_state`); an `.error`
is a raised exception, caught by `except Exception` at line 191, and leaves
the state at its old value.  Branches for other message types never assign
the state and are therefore summarised by `pure st`. -/
def iopubNewState (st : JValue) (msg : JValue) : Except String JValue :=
  -- line 154: `content = msg.get("content", {})`
  match pyGetD msg "content" (.dict []) with
  | .error e => .error e
  | .ok content =>
    -- line 155: `execution_count = content.get("execution_count", None)`
    match pyGetD content "execution_count" .null with
    | .error e => .error e
    | .ok _execution_count =>
      -- line 156: `msg_type = msg["msg_type"]`
      match jget msg "msg_type" with
      | .error e => .error e
      | .ok msg_type =>
        -- lines 157-159: `msg["parent_header"].get("msg_id", None)`
        match jget msg "parent_header" with
        | .error e => .error e
        | .ok parent_header =>
          match pyGetD parent_header "msg_id" .null with
          | .error e => .error e
          | .ok _msg_id =>
            if strEq msg_type MSG_TYPE_STATUS then
              -- line 161: `self._kernel._execution_state = content["execution_state"]`
              jget content "execution_state"
            else
              .ok st

/-- The execution state after the I/O-pub listener processes one inbound
message, exceptions caught and logged by lines 191-192. -/
def iopubExecStateStep (st : JValue) (msg : JValue) : JValue :=
  match iopubNewState st msg with
  | .ok st' => st'
  | .error _ => st

/-- Whether a message is a status broadcast (`msg["msg_type"] == "status"`,
with a missing or non-string `msg_type` counting as not-status). -/
def isStatusMsg (msg : JValue) : Bool :=
  match jget msg "msg_type" with
  | .ok v => strEq v MSG_TYPE_STATUS
  | .error _ => false

/-- A well-formed status broadcast carrying `execution_state = s`. -/
def statusMsg (s : String) : JValue :=
  .dict [("msg_type", .str "status"),
         ("parent_header", .dict []),
         ("content", .dict [("execution_state", .str s)])]

/-! ## Listener loops (`MessageReceiver` subclasses, lines 111-225)

Each `run` method is `while not self.exit.is_set(): try: msg = ...get_X_msg(timeout=1)
... except Empty: pass except Exception as ex: logger.exception(ex)`.

`msgLoop` models such a loop: `flag i` is whether `self.exit.is_set()`
returns true at the `i`-th check (the flag is set concurrently by
`shutdown()`), and the list of inputs gives, for each iteration the loop
may reach, the outcome of the bounded-timeout receive (`none` = the
`Empty` timeout, `some msg` = a received message). -/

/-- Outcome of running a listener loop against a finite schedule of
receive outcomes. -/
inductive LoopResult (S : Type) where
  | exited (s : S)
  | running (s : S)
deriving DecidableEq

/-- The listener loop: check the exit flag, then perform one bounded-timeout
receive and handle its outcome with `iter`. -/
def msgLoop {S : Type} (iter : S → Option JValue → S) (flag : Nat → Bool) :
    List (Option JValue) → Nat → S → LoopResult S
  | inputs, i, s =>
    if flag i then .exited s
    else
      match inputs with
      | [] => .running s
      | inp :: rest => msgLoop iter flag rest (i + 1) (iter s inp)

/-- Iteration body that only counts receives (used to state the teardown
bound). -/
def countReceives (n : Nat) (_ : Option JValue) : Nat :=
  n + 1

/-- State of the shell listener: the waiting table plus the exceptions it
has logged. -/
structure ShellListenerState where
  table : ShellMsgQueues
  exLog : List String

/-- One iteration body of `ShellMessageReceiver.run` (lines 128-142):
`Empty` is passed over; any other exception is logged and the loop
continues. -/
def shellIter (s : ShellListenerState) (inp : Option JValue) : ShellListenerState :=
  match inp with
  | none => s
  | some msg =>
    match shellReceiverStep s.table msg with
    | (t, none) => { table := t, exLog := s.exLog }
    | (t, some e) => { table := t, exLog := s.exLog ++ [e] }

/-- State of the I/O-pub listener: the execution state plus the exceptions
it has logged. -/
structure IopubListenerState where
  execState : JValue
  exLog : List String

/-- One iteration body of `IOPubMessageReceiver.run` (lines 150-192). -/
def iopubIter (s : IopubListenerState) (inp : Option JValue) : IopubListenerState :=
  match inp with
  | none => s
  | some msg =>
    match iopubNewState s.execState msg with
    | .ok st => { execState := st, exLog := s.exLog }
    | .error e => { execState := s.execState, exLog := s.exLog ++ [e] }

/-- The three receivers' `exit` events (`MessageReceiver.__init__`,
line 116, one per receiver started in `_init_receivers`). -/
structure ReceiverFlags where
  shellExit : Bool
  iopubExit : Bool
  stdinExit : Bool
deriving DecidableEq

/-- `KernelConnection.__del__` (lines 259-262): calls `shutdown()` on all
three receivers, each of which does `self.exit.set()` (line 119). -/
def kernelConnectionDel (_ : ReceiverFlags) : ReceiverFlags :=
  { shellExit := true, iopubExit := true, stdinExit := true }

/-- The receive timeout used by every listener iteration
(`timeout=1` on lines 130, 152, 215); `some` = bounded, `none` would be a
blocking receive. -/
def receiverTimeout : Option Nat := some 1

/-! ## The session registry (`HeliumKernelManager`, `src/helium.py`)

`HeliumKernelManager.kernels` (line 116) maps kernel ids to
`KernelConnection` objects.  A `KernelConnection` delegates lifecycle
operations to its `jupyter_client` kernel-manager collaborator; all this
model needs of a registered connection is its kernel language and whether
`is_alive()` (line 525-527, the heartbeat of the external kernel process)
currently reports true. -/

structure KernelRec where
  lang : String
  alive : Bool

structure ManagerState where
  kernels : List (String × KernelRec)

/-- `HeliumKernelManager.list_kernels` (lines 133-140): `(name, id)` for the
registered kernels whose `is_alive()` is true; non-alive entries are
filtered out but NOT removed from `kernels`. -/
def list_kernels (m : ManagerState) : List (String × String) :=
  (m.kernels.filter (fun p => p.2.alive)).map (fun p => (p.2.lang, p.1))

/-- `HeliumKernelManager.shutdown_kernel` (lines 190-193) together with
`KernelConnection.shutdown_kernel` (lines 274-275): the call only delegates
to `self.kernel_manager.shutdown_kernel()`, which terminates the external
kernel process, after which its heartbeat stops and `is_alive()` reports
false (collaborator contract).  Nothing is removed from `cls.kernels`, no
listener `exit` flag is set, and no error state is installed on the
connection. -/
def manager_shutdown_kernel (m : ManagerState) (kernel_id : String) : ManagerState :=
  { kernels := m.kernels.map (fun p =>
      if p.1 == kernel_id then (p.1, { p.2 with alive := false }) else p) }

/-- Registry membership (`kernel_id in cls.kernels`). -/
def managerHas (m : ManagerState) (kernel_id : String) : Bool :=
  (alistLookup m.kernels kernel_id).isSome

/-! ## Interleaving of one `get_complete` caller with the shell listener

The claims about the waiting table under concurrency quantify over every
interleaving of the thread calling `get_complete` with the
`ShellMessageReceiver` thread.  `Sys` is the shared state; the caller's
atomic steps are the source lines of `get_complete` (each lock-protected
region, and the internally synchronised `queue.get`, is one atomic step),
and the listener's step is `shellReceiverStep` for the kernel's reply.
`Step` schedules are arbitrary, so every interleaving is covered.  The
fields `deliveredBeforeGet` and `deliveredAfterPop` are ghost observers
recording when the delivery happened relative to the caller. -/

structure Sys where
  /-- `shell_msg_queues`. -/
  table : ShellMsgQueues
  /-- Caller's program counter in `get_complete` (state "idle" path):
  0 = about to run `self.client.complete` (line 533),
  1 = about to run `queue = self.shell_msg_queues[msg_id]` (lines 534-538),
  2 = blocked in `queue.get(timeout=timeout)` (line 541),
  3 = about to run the `finally:` pop (lines 568-573),
  4 = returned. -/
  pc : Nat
  /-- The kernel's reply has been emitted and is in the shell channel,
  not yet picked up by `get_shell_msg` in the listener. -/
  replyAvail : Bool
  /-- What `queue.get` returned (`none` = `Empty` was raised). -/
  got : Option JValue
  /-- `queue.get` has resolved (returned a message or raised `Empty`). -/
  getDone : Bool
  /-- Number of times the `finally:` pop has run (ghost). -/
  popCount : Nat
  /-- Ghost: the listener delivered the reply before `queue.get` resolved. -/
  deliveredBeforeGet : Bool
  /-- Ghost: the listener delivered the reply after the caller's pop. -/
  deliveredAfterPop : Bool

/-- The request has been transmitted to the kernel. -/
def Sys.sent (s : Sys) : Bool :=
  1 ≤ s.pc

/-- Initial state: nothing sent, waiting table empty for this fresh id. -/
def initSys : Sys :=
  { table := [], pc := 0, replyAvail := false, got := none, getDone := false,
    popCount := 0, deliveredBeforeGet := false, deliveredAfterPop := false }

/-- One atomic step of the caller inside `get_complete` (idle path).
At `pc = 0` the request is transmitted (`client.complete`), which makes the
kernel's reply available to the listener; at `pc = 2` the caller can only
proceed by taking a message off its queue (a blocked `queue.get` is a
no-op while the queue is empty — `timeoutStep` is the `Empty` outcome). -/
def callerStep (msg_id : String) (s : Sys) : Sys :=
  match s.pc with
  | 0 => { s with pc := 1, replyAvail := true }
  | 1 => { s with table := (tblGetOrCreate s.table msg_id).2, pc := 2 }
  | 2 =>
    match tblLookup s.table msg_id with
    | some (m :: rest) =>
      { s with table := tblSet s.table msg_id rest, got := some m,
               getDone := true, pc := 3 }
    | _ => s
  | 3 => { s with table := tblPop s.table msg_id, popCount := s.popCount + 1, pc := 4 }
  | _ => s

/-- The timeout outcome of `queue.get`: only possible while the caller is
blocked at line 541 with its queue still empty (`queue.get` returns a
message whenever one is present before the deadline). -/
def timeoutStep (msg_id : String) (s : Sys) : Sys :=
  match s.pc, tblLookup s.table msg_id with
  | 2, some [] => { s with got := none, getDone := true, pc := 3 }
  | _, _ => s

/-- The shell listener picks the kernel's reply off the channel and runs
lines 130-138 (`shellReceiverStep`); only enabled while the reply is in
the channel. -/
def listenerStep (reply : JValue) (s : Sys) : Sys :=
  if s.replyAvail then
    { s with table := (shellReceiverStep s.table reply).1,
             replyAvail := false,
             deliveredBeforeGet := s.deliveredBeforeGet || !s.getDone,
             deliveredAfterPop := s.deliveredAfterPop || decide (s.pc = 4) }
  else s

/-- Scheduler choices. -/
inductive Step where
  | caller
  | callerTimeout
  | listener
deriving DecidableEq

/-- Execute one scheduled step. -/
def sysStep (msg_id : String) (reply : JValue) (s : Sys) : Step → Sys
  | .caller => callerStep msg_id s
  | .callerTimeout => timeoutStep msg_id s
  | .listener => listenerStep reply s

/-- Run a schedule. -/
def runSys (msg_id : String) (reply : JValue) (sched : List Step) (s : Sys) : Sys :=
  sched.foldl (sysStep msg_id reply) s

/-! ### Reachable-state invariant of the interleaved system -/

theorem shellReceiverStep_lookup_self (t : ShellMsgQueues) (msg : JValue) (mid : String)
    (hpar : parentMsgId msg = .ok mid) :
    tblLookup (shellReceiverStep t msg).1 mid =
      some ((tblGetOrCreate t mid).1 ++ [msg]) := by
  simp only [shellReceiverStep, hpar]
  exact tblLookup_set_self _ _ _

theorem shellReceiverStep_lookup_other (t : ShellMsgQueues) (msg : JValue) (mid k : String)
    (hpar : parentMsgId msg = .ok mid) (hk : k ≠ mid) :
    tblLookup (shellReceiverStep t msg).1 k = tblLookup t k := by
  simp only [shellReceiverStep, hpar]
  rw [tblLookup_set_other _ _ _ _ hk, tblGetOrCreate_lookup_other _ _ _ hk]

/-- Invariant satisfied by every state the interleaved system can reach
from `initSys` (for a fresh correlation id `msg_id` and a kernel reply
correlated to it). -/
structure SysInv (msg_id : String) (reply : JValue) (s : Sys) : Prop where
  pc_le : s.pc ≤ 4
  getDone_eq : s.getDone = decide (3 ≤ s.pc)
  replyAvail_pc : s.replyAvail = true → 1 ≤ s.pc
  dbg_pc : s.deliveredBeforeGet = true → 1 ≤ s.pc
  dbg_replyAvail : s.deliveredBeforeGet = true → s.replyAvail = false
  dbg_state : s.deliveredBeforeGet = true →
    (s.getDone = false ∧ tblLookup s.table msg_id = some [reply]) ∨
    (s.getDone = true ∧ s.got = some reply)
  avail_queue : s.replyAvail = true →
    tblLookup s.table msg_id = none ∨ tblLookup s.table msg_id = some []
  pc0_table : s.pc = 0 → s.table = []
  got_inv : ∀ m, s.got = some m →
    m = reply ∧ s.replyAvail = false ∧ s.getDone = true
  other_keys : ∀ k, k ≠ msg_id → tblLookup s.table k = none
  queue_cases : tblLookup s.table msg_id = none ∨
    tblLookup s.table msg_id = some [] ∨ tblLookup s.table msg_id = some [reply]
  pop_eq : s.popCount = if 4 ≤ s.pc then 1 else 0
  dap_inv : s.deliveredAfterPop = true → s.got = none ∧ s.pc = 4

theorem sysInv_init (msg_id : String) (reply : JValue) :
    SysInv msg_id reply initSys := by
  constructor <;> simp [initSys, tblLookup, alistLookup]

theorem sysInv_preserved (msg_id : String) (reply : JValue)
    (hpar : parentMsgId reply = .ok msg_id) (s : Sys)
    (h : SysInv msg_id reply s) (st : Step) :
    SysInv msg_id reply (sysStep msg_id reply s st) := by
  obtain ⟨tbl, pc, ra, got, gd, pops, dbg, dap⟩ := s
  obtain ⟨pl, gde, rap, dbgp, dbgra, dbgst, avq, pc0, goti, othk, qc, pope, dapi⟩ := h
  simp only at pl gde rap dbgp dbgra dbgst avq pc0 goti othk qc pope dapi
  cases st with
  | caller =>
    simp only [sysStep]
    interval_cases pc
    · -- pc = 0: `client.complete` transmits the request
      have hdbg : dbg = false := by
        cases hd : dbg with
        | false => rfl
        | true => exact absurd (dbgp hd) (by norm_num)
      have hdap : dap = false := by
        cases hd : dap with
        | false => rfl
        | true => exact absurd (dapi hd).2 (by norm_num)
      have hgot : got = none := by
        cases hg : got with
        | none => rfl
        | some m =>
          have h3 := (goti m hg).2.2
          rw [gde] at h3
          exact absurd (of_decide_eq_true h3) (by norm_num)
      have hgd : gd = false := by simpa using gde
      have hra : ra = false := by
        cases hr : ra with
        | false => rfl
        | true => exact absurd (rap hr) (by norm_num)
      have htbl : tbl = [] := pc0 rfl
      have hpops : pops = 0 := by simpa using pope
      subst hdbg hdap hgot hgd hra htbl hpops
      constructor <;> simp [callerStep, tblLookup, alistLookup]
    · -- pc = 1: register the queue under the fresh id (defaultdict lookup)
      simp only [callerStep]
      constructor
      · norm_num
      · simpa using gde
      · intro _; norm_num
      · intro _; norm_num
      · exact dbgra
      · intro hd
        rcases dbgst hd with ⟨hgd, hlk⟩ | ⟨hgd, hgot⟩
        · exact Or.inl ⟨hgd, by simp [tblGetOrCreate, hlk]⟩
        · exact Or.inr ⟨hgd, hgot⟩
      · intro hra
        right
        rw [tblGetOrCreate_lookup_self]
        rcases avq hra with hl | hl <;> simp [tblGetOrCreate, hl]
      · intro hc; exact absurd hc (by norm_num)
      · exact goti
      · intro k hk
        rw [tblGetOrCreate_lookup_other _ _ _ hk]
        exact othk k hk
      · rcases qc with hl | hl | hl <;> rw [tblGetOrCreate_lookup_self] <;>
          simp [tblGetOrCreate, hl]
      · simpa using pope
      · intro hd; exact absurd (dapi hd).2 (by norm_num)
    · -- pc = 2: `queue.get` can only take a message that is present
      rcases qc with hlk | hlk | hlk
      · simp only [callerStep, hlk]
        exact ⟨pl, gde, rap, dbgp, dbgra, dbgst, avq, pc0, goti, othk,
          Or.inl hlk, pope, dapi⟩
      · simp only [callerStep, hlk]
        exact ⟨pl, gde, rap, dbgp, dbgra, dbgst, avq, pc0, goti, othk,
          Or.inr (Or.inl hlk), pope, dapi⟩
      · -- the queue holds the reply: `queue.get` returns it
        have hra : ra = false := by
          cases hr : ra with
          | false => rfl
          | true =>
            rcases avq hr with hl | hl <;> rw [hl] at hlk <;> simp at hlk
        simp only [callerStep, hlk]
        constructor
        · norm_num
        · simp
        · intro hc; rw [hra] at hc; exact absurd hc (by simp)
        · intro _; norm_num
        · intro _; exact hra
        · intro _; exact Or.inr ⟨rfl, rfl⟩
        · intro hc; rw [hra] at hc; exact absurd hc (by simp)
        · intro hc; exact absurd hc (by norm_num)
        · intro m hm
          exact ⟨(Option.some.inj hm).symm, hra, rfl⟩
        · intro k hk
          rw [tblLookup_set_other _ _ _ _ hk]
          exact othk k hk
        · exact Or.inr (Or.inl (tblLookup_set_self _ _ _))
        · simpa using pope
        · intro hd; exact absurd (dapi hd).2 (by norm_num)
    · -- pc = 3: the `finally:` pop
      have hgd : gd = true := by simpa using gde
      have hpops : pops = 0 := by simpa using pope
      simp only [callerStep]
      constructor
      · norm_num
      · simp [hgd]
      · intro _; norm_num
      · intro _; norm_num
      · exact dbgra
      · intro hd
        rcases dbgst hd with ⟨hg, _⟩ | ⟨_, hgot⟩
        · rw [hgd] at hg; exact absurd hg (by simp)
        · exact Or.inr ⟨hgd, hgot⟩
      · intro _; exact Or.inl (tblLookup_pop_self _ _)
      · intro hc; exact absurd hc (by norm_num)
      · intro m hm
        exact ⟨(goti m hm).1, (goti m hm).2.1, hgd⟩
      · intro k hk
        rw [tblLookup_pop_other _ _ _ hk]
        exact othk k hk
      · exact Or.inl (tblLookup_pop_self _ _)
      · simp [hpops]
      · intro hd; exact absurd (dapi hd).2 (by norm_num)
    · -- pc = 4: returned; no further caller effect
      simp only [callerStep]
      exact ⟨pl, gde, rap, dbgp, dbgra, dbgst, avq, pc0, goti, othk, qc, pope, dapi⟩
  | callerTimeout =>
    simp only [sysStep]
    interval_cases pc
    · simp only [timeoutStep]
      exact ⟨pl, gde, rap, dbgp, dbgra, dbgst, avq, pc0, goti, othk, qc, pope, dapi⟩
    · simp only [timeoutStep]
      exact ⟨pl, gde, rap, dbgp, dbgra, dbgst, avq, pc0, goti, othk, qc, pope, dapi⟩
    · rcases qc with hlk | hlk | hlk
      · simp only [timeoutStep, hlk]
        exact ⟨pl, gde, rap, dbgp, dbgra, dbgst, avq, pc0, goti, othk,
          Or.inl hlk, pope, dapi⟩
      · -- queue still empty at the deadline: `Empty` is raised
        have hdbg : dbg = false := by
          cases hd : dbg with
          | false => rfl
          | true =>
            rcases dbgst hd with ⟨_, hl⟩ | ⟨hg, _⟩
            · rw [hl] at hlk; simp at hlk
            · rw [gde] at hg; exact absurd (of_decide_eq_true hg) (by norm_num)
        simp only [timeoutStep, hlk]
        constructor
        · norm_num
        · simp
        · intro _; norm_num
        · intro hd; rw [hdbg] at hd; exact absurd hd (by simp)
        · intro hd; rw [hdbg] at hd; exact absurd hd (by simp)
        · intro hd; rw [hdbg] at hd; exact absurd hd (by simp)
        · exact avq
        · intro hc; exact absurd hc (by norm_num)
        · intro m hm; exact absurd hm (by simp)
        · exact othk
        · exact Or.inr (Or.inl hlk)
        · simpa using pope
        · intro hd; exact absurd (dapi hd).2 (by norm_num)
      · simp only [timeoutStep, hlk]
        exact ⟨pl, gde, rap, dbgp, dbgra, dbgst, avq, pc0, goti, othk,
          Or.inr (Or.inr hlk), pope, dapi⟩
    · simp only [timeoutStep]
      exact ⟨pl, gde, rap, dbgp, dbgra, dbgst, avq, pc0, goti, othk, qc, pope, dapi⟩
    · simp only [timeoutStep]
      exact ⟨pl, gde, rap, dbgp, dbgra, dbgst, avq, pc0, goti, othk, qc, pope, dapi⟩
  | listener =>
    cases hra : ra with
    | false =>
      simp only [sysStep, listenerStep]
      subst hra
      simp only [Bool.false_eq_true, if_neg, ite_false]
      exact ⟨pl, gde, rap, dbgp, dbgra, dbgst, avq, pc0, goti, othk, qc, pope, dapi⟩
    | true =>
      subst hra
      have hgot : got = none := by
        cases hg : got with
        | none => rfl
        | some m => exact absurd (goti m hg).2.1 (by simp)
      have hdbg : dbg = false := by
        cases hd : dbg with
        | false => rfl
        | true => exact absurd (dbgra hd) (by simp)
      have hq : (tblGetOrCreate tbl msg_id).1 = [] := by
        rcases avq rfl with hl | hl <;> simp [tblGetOrCreate, hl]
      have hself : tblLookup (shellReceiverStep tbl reply).1 msg_id = some [reply] := by
        rw [shellReceiverStep_lookup_self _ _ _ hpar, hq]
        rfl
      subst hgot hdbg
      simp only [sysStep, listenerStep, if_pos, ite_true, Bool.false_or]
      constructor
      · exact pl
      · exact gde
      · intro hc; exact absurd hc (by simp)
      · intro _; exact rap rfl
      · intro _; rfl
      · intro hd
        have hgd : gd = false := by simpa using hd
        exact Or.inl ⟨hgd, hself⟩
      · intro hc; exact absurd hc (by simp)
      · intro h0
        simp only at h0
        exact absurd (rap rfl) (by rw [h0]; norm_num)
      · intro m hm; exact absurd hm (by simp)
      · intro k hk
        rw [shellReceiverStep_lookup_other _ _ _ _ hpar hk]
        exact othk k hk
      · exact Or.inr (Or.inr hself)
      · exact pope
      · intro hd
        simp only at hd
        by_cases hdap : dap = true
        · exact ⟨rfl, (dapi hdap).2⟩
        · have hpc4 : decide (pc = 4) = true := by
            cases hdp : dap with
            | true => exact absurd hdp hdap
            | false => rw [hdp] at hd; simpa using hd
          exact ⟨rfl, of_decide_eq_true hpc4⟩
theorem sysInv_run (msg_id : String) (reply : JValue)
    (hpar : parentMsgId reply = .ok msg_id) (sched : List Step) :
    SysInv msg_id reply (runSys msg_id reply sched initSys) := by
  suffices hgen : ∀ s, SysInv msg_id reply s →
      SysInv msg_id reply (runSys msg_id reply sched s) from
    hgen initSys (sysInv_init msg_id reply)
  induction sched with
  | nil => intro s hh; exact hh
  | cons st rest ih =>
    intro s hh
    exact ih _ (sysInv_preserved msg_id reply hpar s hh st)

/-! ### Listener-loop lemmas -/

/-- A listener loop whose exit flag first reads true at check `i + j`
performs exactly the `j` receives scheduled before that check and then
exits. -/
theorem msgLoop_exit_at {S : Type} (iter : S → Option JValue → S) (flag : Nat → Bool) :
    ∀ (j : Nat) (inputs : List (Option JValue)) (i : Nat) (s : S),
      (∀ k, k < j → flag (i + k) = false) → flag (i + j) = true →
      j ≤ inputs.length →
      msgLoop iter flag inputs i s = .exited ((inputs.take j).foldl iter s) := by
  intro j
  induction j with
  | zero =>
    intro inputs i s _ ht _
    unfold msgLoop
    rw [show i + 0 = i from rfl] at ht
    simp [ht]
  | succ n ih =>
    intro inputs i s hf ht hlen
    match inputs with
    | [] => simp at hlen
    | inp :: rest =>
      have h0 : flag i = false := by simpa using hf 0 (Nat.succ_pos n)
      have hrec := ih rest (i + 1) (iter s inp)
        (fun k hk => by
          rw [show i + 1 + k = i + (k + 1) by omega]
          exact hf (k + 1) (by omega))
        (by rw [show i + 1 + n = i + (n + 1) by omega]; exact ht)
        (by simpa using hlen)
      unfold msgLoop
      rw [h0]
      simpa [List.take, List.foldl] using hrec

/-- A listener loop whose exit flag stays false processes its entire
schedule of receive outcomes and is still running afterwards: no message,
malformed or not, terminates it. -/
theorem msgLoop_runs {S : Type} (iter : S → Option JValue → S) (flag : Nat → Bool) :
    ∀ (inputs : List (Option JValue)) (i : Nat) (s : S),
      (∀ k, k ≤ inputs.length → flag (i + k) = false) →
      msgLoop iter flag inputs i s = .running (inputs.foldl iter s) := by
  intro inputs
  induction inputs with
  | nil =>
    intro i s hf
    unfold msgLoop
    rw [show flag i = false by simpa using hf 0 (by simp)]
    simp
  | cons inp rest ih =>
    intro i s hf
    unfold msgLoop
    rw [show flag i = false by simpa using hf 0 (by simp)]
    have hrec := ih (i + 1) (iter s inp)
      (fun k hk => by
        rw [show i + 1 + k = i + (k + 1) by omega]
        exact hf (k + 1) (by simpa using Nat.succ_le_succ hk))
    simpa [List.foldl] using hrec

/-- Counting fold: the number of receives equals the schedule length. -/
theorem foldl_countReceives (inputs : List (Option JValue)) :
    ∀ n : Nat, inputs.foldl countReceives n = n + inputs.length := by
  induction inputs with
  | nil => intro n; simp
  | cons inp rest ih =>
    intro n
    simp only [List.foldl, countReceives, ih, List.length_cons]
    omega

/-- `iopubExecStateStep` leaves the state unchanged on every message that is
not a status broadcast (and also on any malformed message, since the raised
exception is caught at line 191). -/
theorem iopubExecStateStep_nonstatus (st msg : JValue)
    (h : isStatusMsg msg = false) :
    iopubExecStateStep st msg = st := by
  unfold iopubExecStateStep iopubNewState
  unfold isStatusMsg at h
  generalize pyGetD msg "content" (.dict []) = x1
  cases x1 with
  | error e => rfl
  | ok content =>
    dsimp only
    generalize pyGetD content "execution_count" .null = x2
    cases x2 with
    | error e => rfl
    | ok v =>
      dsimp only
      revert h
      generalize jget msg "msg_type" = x3
      intro h
      cases x3 with
      | error e => rfl
      | ok msg_type =>
        dsimp only
        have hs : strEq msg_type MSG_TYPE_STATUS = false := by simpa using h
        generalize jget msg "parent_header" = x4
        cases x4 with
        | error e => rfl
        | ok ph =>
          dsimp only
          generalize pyGetD ph "msg_id" .null = x5
          cases x5 with
          | error e => rfl
          | ok w =>
            dsimp only
            simp [hs]

/-! ### Registry lemmas -/

/-- `shutdown_kernel` does not change the set of registered kernel ids. -/
theorem shutdown_keys (ks : List (String × KernelRec)) (kid : String) :
    (ks.map (fun p =>
        if p.1 == kid then (p.1, { p.2 with alive := false }) else p)).map Prod.fst
      = ks.map Prod.fst := by
  induction ks with
  | nil => rfl
  | cons p t ih =>
    simp only [List.map_cons, ih]
    by_cases h : p.1 = kid
    · rw [if_pos (beq_iff_eq.mpr h)]
    · rw [if_neg (by simpa using h)]

/-- After `shutdown_kernel kid` the id `kid` does not appear in
`list_kernels`' output (every entry of that id has `alive = false` and is
filtered out). -/
theorem shutdown_not_listed (ks : List (String × KernelRec)) (kid : String) :
    ((((ks.map (fun p =>
          if p.1 == kid then (p.1, { p.2 with alive := false }) else p)).filter
        (fun p => p.2.alive)).map (fun p => (p.2.lang, p.1))).map Prod.snd).contains kid
      = false := by
  induction ks with
  | nil => rfl
  | cons p t ih =>
    simp only [List.map_cons]
    by_cases h : p.1 = kid
    · rw [if_pos (beq_iff_eq.mpr h), List.filter_cons, if_neg (by simp)]
      exact ih
    · rw [if_neg (by simpa using h), List.filter_cons]
      by_cases ha : p.2.alive = true
      · rw [if_pos ha]
        have hk1 : (kid == p.1) = false :=
          beq_eq_false_iff_ne.mpr (fun hc => h hc.symm)
        have hk2 : (p.1 == kid) = false := beq_eq_false_iff_ne.mpr h
        simp only [List.map_cons, List.contains_cons, hk1, hk2, Bool.false_or]
        exact ih
      · rw [if_neg ha]
        exact ih

/-! ### Projection helpers for the sequential request models -/

theorem get_complete_raised (execState : JValue) (table : ShellMsgQueues)
    (msg_id : String) (reply? : Option JValue) :
    (get_complete_model execState table msg_id reply?).raised = false := by
  unfold get_complete_model
  cases h : isIdle execState
  · rfl
  · rw [if_neg (by simp : ¬((!true) = true))]
    cases reply? with
    | none => rfl
    | some msg =>
      dsimp only
      generalize completeReplyResult msg = r
      cases r <;> rfl

theorem get_complete_execStateAfter (execState : JValue) (table : ShellMsgQueues)
    (msg_id : String) (reply? : Option JValue) :
    (get_complete_model execState table msg_id reply?).execStateAfter = execState := by
  unfold get_complete_model
  cases h : isIdle execState
  · rfl
  · rw [if_neg (by simp : ¬((!true) = true))]
    cases reply? with
    | none => rfl
    | some msg =>
      dsimp only
      generalize completeReplyResult msg = r
      cases r <;> rfl

theorem get_inspection_execStateAfter (execState : JValue) (table : ShellMsgQueues)
    (msg_id : String) (reply? : Option JValue) :
    (get_inspection_model execState table msg_id reply?).execStateAfter = execState := by
  unfold get_inspection_model
  cases reply? with
  | none => rfl
  | some msg =>
    dsimp only
    generalize (do
      let content ← jget msg "content"
      jget content "data" : Except String JValue) = r
    cases r <;> rfl

/-! ## Concrete demonstration values -/

/-- A well-formed `complete_reply` correlated to request id `"m1"` whose
content is `{matches: ["foo.bar", "foo.baz"]}`. -/
def fooCompleteReply : JValue :=
  .dict [("parent_header", .dict [("msg_id", .str "m1")]),
         ("content", .dict [("matches", .list [.str "foo.bar", .str "foo.baz"])])]

/-- A schedule in which the listener delivers the kernel reply between the
caller's transmission and registration steps. -/
def demoSched : List Step :=
  [Step.caller, Step.listener, Step.caller, Step.caller, Step.caller]

/-- A registry holding one live python kernel with id `"k1"`. -/
def demoManager : ManagerState :=
  { kernels := [("k1", { lang := "python", alive := true })] }

/-! ## Claim theorems -/

/-- C1: for a correlated shell request with a unique correlation id, in
every interleaving of the requesting thread with the shell listener, the
waiting-table entry for that id is removed exactly once (the `finally:`
pop, whichever of the delivery or timeout path reaches it — never twice);
the caller's `queue.get` only ever receives the reply correlated to its
own id; a reply delivered after the caller has removed its entry is not
delivered to any waiter (the caller had already timed out with `got =
none`); and the listener's delivery step never touches a waiting-table
entry registered under a different correlation id. -/
theorem shell_reply_delivered_once_and_entry_removed_once
    (msg_id : String) (reply : JValue) (sched : List Step)
    (t : ShellMsgQueues) (msg : JValue) (mid k : String)
    (hpar : parentMsgId reply = .ok msg_id)
    (hmid : parentMsgId msg = .ok mid) (hk : k ≠ mid) :
    (runSys msg_id reply sched initSys).popCount ≤ 1 ∧
    (runSys msg_id reply sched initSys).popCount
      = (if (runSys msg_id reply sched initSys).pc = 4 then 1 else 0) ∧
    ((runSys msg_id reply sched initSys).deliveredAfterPop
        && (runSys msg_id reply sched initSys).got.isSome) = false ∧
    ((runSys msg_id reply sched initSys).got = none ∨
      (runSys msg_id reply sched initSys).got = some reply) ∧
    tblLookup (shellReceiverStep t msg).1 k = tblLookup t k := by
  have inv := sysInv_run msg_id reply hpar sched
  refine ⟨?_, ?_, ?_, ?_, shellReceiverStep_lookup_other t msg mid k hmid hk⟩
  · rw [inv.pop_eq]
    split <;> norm_num
  · rw [inv.pop_eq]
    have hle := inv.pc_le
    by_cases h4 : (runSys msg_id reply sched initSys).pc = 4
    · rw [if_pos h4, if_pos (by omega)]
    · rw [if_neg h4, if_neg (by omega)]
  · cases hd : (runSys msg_id reply sched initSys).deliveredAfterPop
    · simp
    · rw [(inv.dap_inv hd).1]
      simp
  · cases hg : (runSys msg_id reply sched initSys).got with
    | none => exact Or.inl rfl
    | some m => exact Or.inr (by rw [(inv.got_inv m hg).1])

theorem shell_reply_delivered_once_and_entry_removed_once_witness :
    parentMsgId fooCompleteReply = .ok "m1" ∧ ("other" : String) ≠ "m1" ∧
    ((runSys "m1" fooCompleteReply demoSched initSys).popCount ≤ 1 ∧
     (runSys "m1" fooCompleteReply demoSched initSys).popCount
       = (if (runSys "m1" fooCompleteReply demoSched initSys).pc = 4 then 1 else 0) ∧
     ((runSys "m1" fooCompleteReply demoSched initSys).deliveredAfterPop
         && (runSys "m1" fooCompleteReply demoSched initSys).got.isSome) = false ∧
     ((runSys "m1" fooCompleteReply demoSched initSys).got = none ∨
       (runSys "m1" fooCompleteReply demoSched initSys).got = some fooCompleteReply) ∧
     tblLookup (shellReceiverStep [] fooCompleteReply).1 "other" = tblLookup [] "other") :=
  ⟨rfl, by decide,
    shell_reply_delivered_once_and_entry_removed_once "m1" fooCompleteReply demoSched
      [] fooCompleteReply "m1" "other" rfl rfl (by decide)⟩

/-- C2 counterexample: the claim that the pending entry is registered
before the request message is transmitted is false on the code: in
`get_complete` the transmission (`msg_id = self.client.complete(...)`,
line 533) happens strictly before the registration
(`queue = self.shell_msg_queues[msg_id]`, lines 534-538).  Concretely,
after executing exactly the transmission step, the request has been sent
(`sent = true`) while the waiting table holds no entry for the fresh
correlation id `"m1"`. -/
theorem entry_registered_before_send_counterexample :
    (runSys "m1" fooCompleteReply [Step.caller] initSys).sent = true ∧
    tblHas (runSys "m1" fooCompleteReply [Step.caller] initSys).table "m1" = false :=
  ⟨rfl, rfl⟩

/-- C2 (amended): the pending entry is registered immediately AFTER the
request message is transmitted, not before; nevertheless no interleaving
of the listener and the requesting thread loses the reply, because
`shell_msg_queues` is a `defaultdict`: whichever side looks the id up
first creates the shared queue.  In every schedule, if the listener
delivered the reply before the caller's `queue.get` resolved, then once
`queue.get` has resolved it returned exactly that reply. -/
theorem entry_registered_after_send_reply_not_lost
    (msg_id : String) (reply : JValue) (sched : List Step)
    (hpar : parentMsgId reply = .ok msg_id) :
    (runSys msg_id reply sched initSys).deliveredBeforeGet = false ∨
    (runSys msg_id reply sched initSys).getDone = false ∨
    (runSys msg_id reply sched initSys).got = some reply := by
  have inv := sysInv_run msg_id reply hpar sched
  cases hd : (runSys msg_id reply sched initSys).deliveredBeforeGet
  · exact Or.inl rfl
  · rcases inv.dbg_state hd with ⟨hg, _⟩ | ⟨_, hgot⟩
    · exact Or.inr (Or.inl hg)
    · exact Or.inr (Or.inr hgot)

theorem entry_registered_after_send_reply_not_lost_witness :
    parentMsgId fooCompleteReply = .ok "m1" ∧
    ((runSys "m1" fooCompleteReply demoSched initSys).deliveredBeforeGet = false ∨
     (runSys "m1" fooCompleteReply demoSched initSys).getDone = false ∨
     (runSys "m1" fooCompleteReply demoSched initSys).got = some fooCompleteReply) :=
  ⟨rfl, entry_registered_after_send_reply_not_lost "m1" fooCompleteReply demoSched rfl⟩

/-- C3: when the kernel never replies, `get_complete` on an idle session
(for any timeout; with `timeout=0` the `Empty` exception is immediate)
returns the empty sequence without raising, logs
`"Completion timeout."` at info level, and the waiting-table entry for the
request's correlation id is absent afterwards; `get_inspection` likewise
produces the "not found" outcome (nothing is handed to the inspection
panel), logs `"Object inspection timeout."` at info level, does not raise,
and leaves no waiting-table entry. -/
theorem silent_kernel_timeout_returns_empty_no_leak
    (execState : JValue) (table : ShellMsgQueues) (msg_id : String)
    (hidle : isIdle execState = true) :
    (get_complete_model execState table msg_id none).result = [] ∧
    (get_complete_model execState table msg_id none).raised = false ∧
    (get_complete_model execState table msg_id none).log
      = [LogEntry.info "Completion timeout."] ∧
    tblHas (get_complete_model execState table msg_id none).table msg_id = false ∧
    (get_inspection_model execState table msg_id none).inspected = none ∧
    (get_inspection_model execState table msg_id none).raised = false ∧
    (get_inspection_model execState table msg_id none).log
      = [LogEntry.info "Object inspection timeout."] ∧
    tblHas (get_inspection_model execState table msg_id none).table msg_id = false := by
  unfold get_complete_model get_inspection_model
  rw [hidle]
  simp [tblHas_pop_self]

theorem silent_kernel_timeout_returns_empty_no_leak_witness :
    isIdle (.str "idle") = true ∧
    ((get_complete_model (.str "idle") [] "r0" none).result = [] ∧
     (get_complete_model (.str "idle") [] "r0" none).raised = false ∧
     (get_complete_model (.str "idle") [] "r0" none).log
       = [LogEntry.info "Completion timeout."] ∧
     tblHas (get_complete_model (.str "idle") [] "r0" none).table "r0" = false ∧
     (get_inspection_model (.str "idle") [] "r0" none).inspected = none ∧
     (get_inspection_model (.str "idle") [] "r0" none).raised = false ∧
     (get_inspection_model (.str "idle") [] "r0" none).log
       = [LogEntry.info "Object inspection timeout."] ∧
     tblHas (get_inspection_model (.str "idle") [] "r0" none).table "r0" = false) :=
  ⟨rfl, silent_kernel_timeout_returns_empty_no_leak (.str "idle") [] "r0" rfl⟩

/-- C4: while the session's `execution_state` is anything other than
`"idle"` (busy, starting, unknown, dead, or any non-string value),
`get_complete` returns the empty sequence immediately, transmits no
completion request to the kernel, leaves the waiting table unchanged,
does not raise, and does not write `execution_state`. -/
theorem non_idle_complete_returns_empty_without_request
    (execState : JValue) (table : ShellMsgQueues) (msg_id : String)
    (reply? : Option JValue) (h : isIdle execState = false) :
    (get_complete_model execState table msg_id reply?).result = [] ∧
    (get_complete_model execState table msg_id reply?).sent = false ∧
    (get_complete_model execState table msg_id reply?).table = table ∧
    (get_complete_model execState table msg_id reply?).raised = false ∧
    (get_complete_model execState table msg_id reply?).execStateAfter = execState := by
  unfold get_complete_model
  rw [h]
  simp

theorem non_idle_complete_returns_empty_without_request_witness :
    isIdle (.str "busy") = false ∧
    ((get_complete_model (.str "busy") [] "r0" none).result = [] ∧
     (get_complete_model (.str "busy") [] "r0" none).sent = false ∧
     (get_complete_model (.str "busy") [] "r0" none).table = [] ∧
     (get_complete_model (.str "busy") [] "r0" none).raised = false ∧
     (get_complete_model (.str "busy") [] "r0" none).execStateAfter = .str "busy") :=
  ⟨rfl, non_idle_complete_returns_empty_without_request (.str "busy") [] "r0" none rfl⟩

/-- C5: `_execution_state` is initialised to `"unknown"`, is written only
when the I/O-pub listener processes a status broadcast (taking the value
carried in that message), is never written by the request-issuing
operations (`execute_code`, `get_complete`, `get_inspection`), and a
sequence of status events `starting, idle, busy, idle` delivered in order
drives the field through exactly those values in that order. -/
theorem execution_state_written_only_by_status_broadcasts
    (st : JValue) (msg : JValue) (s' : String)
    (table : ShellMsgQueues) (msg_id : String) (reply? : Option JValue)
    (id2region : List (String × Nat)) (regionEnd : Nat)
    (h : isStatusMsg msg = false) :
    initExecutionState = .str "unknown" ∧
    iopubExecStateStep st msg = st ∧
    iopubExecStateStep st (statusMsg s') = .str s' ∧
    (get_complete_model st table msg_id reply?).execStateAfter = st ∧
    (get_inspection_model st table msg_id reply?).execStateAfter = st ∧
    (execute_code_model st id2region msg_id regionEnd).execStateAfter = st ∧
    List.scanl iopubExecStateStep st (["starting", "idle", "busy", "idle"].map statusMsg)
      = [st, .str "starting", .str "idle", .str "busy", .str "idle"] :=
  ⟨rfl, iopubExecStateStep_nonstatus st msg h, rfl,
    get_complete_execStateAfter st table msg_id reply?,
    get_inspection_execStateAfter st table msg_id reply?, rfl, rfl⟩

theorem execution_state_written_only_by_status_broadcasts_witness :
    isStatusMsg (.dict [("msg_type", .str "stream")]) = false ∧
    (initExecutionState = .str "unknown" ∧
     iopubExecStateStep (.str "unknown") (.dict [("msg_type", .str "stream")])
       = .str "unknown" ∧
     iopubExecStateStep (.str "unknown") (statusMsg "busy") = .str "busy" ∧
     (get_complete_model (.str "unknown") [] "r0" none).execStateAfter = .str "unknown" ∧
     (get_inspection_model (.str "unknown") [] "r0" none).execStateAfter = .str "unknown" ∧
     (execute_code_model (.str "unknown") [] "r0" 0).execStateAfter = .str "unknown" ∧
     List.scanl iopubExecStateStep (.str "unknown")
         (["starting", "idle", "busy", "idle"].map statusMsg)
       = [.str "unknown", .str "starting", .str "idle", .str "busy", .str "idle"]) :=
  ⟨rfl, execution_state_written_only_by_status_broadcasts (.str "unknown")
    (.dict [("msg_type", .str "stream")]) "busy" [] "r0" none [] 0 rfl⟩

/-- C6: every listener iteration first checks the `exit` flag and then
performs one receive bounded by `timeout=1`; when the flag first reads
true at check `j + 1` (it was set while the `(j+1)`-st receive was in
flight), the loop exits having performed exactly `j + 1` receives — at
most one bounded-timeout receive after the flag was set; and
`KernelConnection.__del__` sets the exit flags of all three listeners. -/
theorem listener_loops_bounded_receive_and_shutdown_flag
    (flag : Nat → Bool) (inputs : List (Option JValue)) (j : Nat) (r : ReceiverFlags)
    (hbefore : ∀ k, k < j + 1 → flag k = false)
    (hset : flag (j + 1) = true)
    (hlen : j + 1 ≤ inputs.length) :
    msgLoop countReceives flag inputs 0 0 = .exited (j + 1) ∧
    kernelConnectionDel r
      = { shellExit := true, iopubExit := true, stdinExit := true } ∧
    receiverTimeout = some 1 := by
  refine ⟨?_, rfl, rfl⟩
  have hrun := msgLoop_exit_at countReceives flag (j + 1) inputs 0 0
    (fun k hk => by simpa using hbefore k hk) (by simpa using hset) hlen
  rw [hrun, foldl_countReceives, List.length_take]
  congr 1
  omega

theorem listener_loops_bounded_receive_and_shutdown_flag_witness :
    (∀ k, k < 2 + 1 → (fun i => decide (3 ≤ i)) k = false) ∧
    (fun i => decide (3 ≤ i)) (2 + 1) = true ∧
    2 + 1 ≤ [none, none, some (statusMsg "idle"), none].length ∧
    (msgLoop countReceives (fun i => decide (3 ≤ i))
        [none, none, some (statusMsg "idle"), none] 0 0 = .exited (2 + 1) ∧
     kernelConnectionDel { shellExit := false, iopubExit := false, stdinExit := false }
       = { shellExit := true, iopubExit := true, stdinExit := true } ∧
     receiverTimeout = some 1) :=
  ⟨by decide, by decide, by decide,
    listener_loops_bounded_receive_and_shutdown_flag (fun i => decide (3 ≤ i))
      [none, none, some (statusMsg "idle"), none] 2
      { shellExit := false, iopubExit := false, stdinExit := false }
      (by decide) (by decide) (by decide)⟩

/-- C7: while the exit flag stays unset, each listener loop processes its
entire stream of receive outcomes and keeps running — no malformed message
or failing handler terminates it; a shell message whose parent header
cannot be read is caught, logged, and leaves the waiting table unchanged;
an I/O-pub message whose handling raises is caught and logged with the
execution state unchanged. -/
theorem listener_loops_survive_bad_messages
    (flag : Nat → Bool) (inputs : List (Option JValue))
    (s0 : ShellListenerState) (i0 : IopubListenerState)
    (t : ShellMsgQueues) (l : List String) (st : JValue)
    (badShell badIopub : JValue) (e e' : String)
    (hflag : ∀ k, k ≤ inputs.length → flag k = false)
    (hbad : parentMsgId badShell = .error e)
    (hbad' : iopubNewState st badIopub = .error e') :
    msgLoop shellIter flag inputs 0 s0 = .running (inputs.foldl shellIter s0) ∧
    msgLoop iopubIter flag inputs 0 i0 = .running (inputs.foldl iopubIter i0) ∧
    shellIter { table := t, exLog := l } (some badShell)
      = { table := t, exLog := l ++ [e] } ∧
    iopubIter { execState := st, exLog := l } (some badIopub)
      = { execState := st, exLog := l ++ [e'] } := by
  refine ⟨?_, ?_, ?_, ?_⟩
  · exact msgLoop_runs shellIter flag inputs 0 s0
      (fun k hk => by simpa using hflag k hk)
  · exact msgLoop_runs iopubIter flag inputs 0 i0
      (fun k hk => by simpa using hflag k hk)
  · simp [shellIter, shellReceiverStep, hbad]
  · simp [iopubIter, hbad']

theorem listener_loops_survive_bad_messages_witness :
    (∀ k, k ≤ [some (JValue.dict []), none].length → (fun _ => false) k = false) ∧
    parentMsgId (JValue.dict []) = .error "KeyError: parent_header" ∧
    iopubNewState (.str "unknown") (.str "zap")
      = .error "AttributeError: object has no attribute get: content" ∧
    (msgLoop shellIter (fun _ => false) [some (JValue.dict []), none] 0
        { table := [], exLog := [] }
      = .running ([some (JValue.dict []), none].foldl shellIter
          { table := [], exLog := [] }) ∧
     msgLoop iopubIter (fun _ => false) [some (JValue.dict []), none] 0
        { execState := .str "unknown", exLog := [] }
      = .running ([some (JValue.dict []), none].foldl iopubIter
          { execState := .str "unknown", exLog := [] }) ∧
     shellIter { table := [], exLog := [] } (some (JValue.dict []))
       = { table := [], exLog := [] ++ ["KeyError: parent_header"] } ∧
     iopubIter { execState := .str "unknown", exLog := [] } (some (.str "zap"))
       = { execState := .str "unknown",
           exLog := [] ++ ["AttributeError: object has no attribute get: content"] }) :=
  ⟨fun _ _ => rfl, rfl, rfl,
    listener_loops_survive_bad_messages (fun _ => false)
      [some (JValue.dict []), none] { table := [], exLog := [] }
      { execState := .str "unknown", exLog := [] } [] [] (.str "unknown")
      (JValue.dict []) (.str "zap") "KeyError: parent_header"
      "AttributeError: object has no attribute get: content"
      (fun _ _ => rfl) rfl rfl⟩

/-- C8 counterexample: after `shutdown()` the session is NOT unregistered
and subsequent calls do NOT fail with `SessionClosedError` (no such error
exists anywhere in the code): `HeliumKernelManager.shutdown_kernel` only
delegates to the jupyter kernel manager, leaving `cls.kernels` untouched —
the id `"k1"` is still registered afterwards — and a subsequent
`get_complete` on an idle-state session simply proceeds to transmit a
request and returns normally. -/
theorem shutdown_session_closed_counterexample :
    managerHas (manager_shutdown_kernel demoManager "k1") "k1" = true ∧
    (get_complete_model (.str "idle") [] "m2" none).sent = true ∧
    (get_complete_model (.str "idle") [] "m2" none).raised = false :=
  ⟨rfl, rfl, rfl⟩

/-- C8 (amended): `shutdown_kernel` leaves the registry's key set
unchanged (the session is not unregistered) and installs no error state:
subsequent `get_complete`/`get_inspection` calls do not raise any
session-closed error (a non-idle state makes `get_complete` return `[]`,
otherwise the calls proceed normally); the session id is nevertheless
absent from `list_kernels()`, because `list_kernels` filters on
`is_alive()` and the shut-down kernel's heartbeat has stopped. -/
theorem shutdown_keeps_registration_but_hides_from_list
    (m : ManagerState) (kernel_id : String) (execState : JValue)
    (table : ShellMsgQueues) (msg_id : String) (reply? : Option JValue) :
    (manager_shutdown_kernel m kernel_id).kernels.map Prod.fst
      = m.kernels.map Prod.fst ∧
    ((list_kernels (manager_shutdown_kernel m kernel_id)).map Prod.snd).contains
        kernel_id = false ∧
    (get_complete_model execState table msg_id reply?).raised = false ∧
    (get_inspection_model execState table msg_id none).raised = false :=
  ⟨shutdown_keys m.kernels kernel_id,
    shutdown_not_listed m.kernels kernel_id,
    get_complete_raised execState table msg_id reply?, rfl⟩

/-- C9 counterexample: in the concrete scenario (`complete("foo.", 4, ...)`
against a kernel replying `{matches: ["foo.bar", "foo.baz"]}`) the call
does NOT return the sequence `["foo.bar", "foo.baz"]`: it returns a list
of `(display_text, completion_text)` pairs whose display components are
`"foo.bar\tHelium"` and `"foo.baz\tHelium"`. -/
theorem complete_matches_scenario_counterexample :
    (get_complete_model (.str "idle") [] "m1" (some fooCompleteReply)).result.map
        Prod.fst ≠ ["foo.bar", "foo.baz"] := by
  decide

/-- C9 (amended): in the concrete scenario the call returns
`[("foo.bar\tHelium", "foo.bar"), ("foo.baz\tHelium", "foo.baz")]`: one
`(display_text, completion_text)` pair per candidate, the completion texts
being exactly the kernel's matches `["foo.bar", "foo.baz"]` in the order
given by the kernel. -/
theorem complete_matches_scenario_pairs :
    (get_complete_model (.str "idle") [] "m1" (some fooCompleteReply)).result
      = [("foo.bar\tHelium", "foo.bar"), ("foo.baz\tHelium", "foo.baz")] ∧
    (get_complete_model (.str "idle") [] "m1" (some fooCompleteReply)).result.map
        Prod.snd = ["foo.bar", "foo.baz"] :=
  ⟨rfl, rfl⟩

/-- C10: `get_complete` is total at its public interface: it never
propagates an exception to its caller for any `queue.get` outcome, and
when processing the received reply raises (missing keys, malformed
metadata), the exception is caught and logged, the call returns the empty
list, and the waiting-table entry for the request is still removed by the
`finally:` block. -/
theorem get_complete_total_on_replies
    (execState : JValue) (table : ShellMsgQueues) (msg_id : String)
    (reply? : Option JValue) (msg : JValue) (e : String)
    (hidle : isIdle execState = true)
    (herr : completeReplyResult msg = .error e) :
    (get_complete_model execState table msg_id reply?).raised = false ∧
    (get_complete_model execState table msg_id (some msg)).result = [] ∧
    (get_complete_model execState table msg_id (some msg)).log
      = [LogEntry.exception e] ∧
    tblHas (get_complete_model execState table msg_id (some msg)).table msg_id
      = false := by
  refine ⟨get_complete_raised execState table msg_id reply?, ?_, ?_, ?_⟩ <;>
  · unfold get_complete_model
    rw [hidle]
    simp [herr, tblHas_pop_self]

theorem get_complete_total_on_replies_witness :
    isIdle (.str "idle") = true ∧
    completeReplyResult (JValue.dict []) = .error "KeyError: content" ∧
    ((get_complete_model (.str "idle") [] "r0" none).raised = false ∧
     (get_complete_model (.str "idle") [] "r0" (some (JValue.dict []))).result = [] ∧
     (get_complete_model (.str "idle") [] "r0" (some (JValue.dict []))).log
       = [LogEntry.exception "KeyError: content"] ∧
     tblHas (get_complete_model (.str "idle") [] "r0"
        (some (JValue.dict []))).table "r0" = false) :=
  ⟨rfl, rfl,
    get_complete_total_on_replies (.str "idle") [] "r0" none (JValue.dict [])
      "KeyError: content" rfl rfl⟩

end Helium
